import Mathlib

/-!
Verification development for the `surf` content-acquisition and extraction
pipeline (`surf.py`).

Modelling conventions:
* Python strings are Lean `String`s; the Python string operations used by the
  code (`strip`, `split`, `lower`, slicing, the `in` substring test, and
  truthiness) are re-implemented over `String.data` so that every function is
  executable by kernel reduction.
* The HTML documents manipulated through BeautifulSoup are modelled as rose
  trees (`HTree`/`HForest`) whose nodes carry a unique numeric id, standing
  for Python object identity; BeautifulSoup operations (`find_all`, `find`,
  `get_text(strip=True)`, attribute access, `replace_with`, parent walks)
  are defined over these trees.  Parsing an HTML string into a tree is an
  external library step and is passed in as an oracle `parse : String → HTree`.
* External engines (readability's `Document.title/summary`, trafilatura,
  the HTTP client, the browser, the Windows registry, interactive login) are
  oracle parameters; fallible ones return `Except`/`Option`.
-/

/-! ## Python string primitives -/

/-- Python truthiness of a string: nonempty. -/
def truthyS (s : String) : Bool := !s.data.isEmpty

/-- Python truthiness of an optional string (`None` and `""` are falsy). -/
def truthy : Option String → Bool
  | none => false
  | some s => truthyS s

/-- Python `a or b` on optional strings: `a` when truthy, else `b`. -/
def pyOr (a b : Option String) : Option String := if truthy a then a else b

/-- Characters treated as whitespace by Python `str.strip()` (ASCII part). -/
def pyIsSpace (c : Char) : Bool :=
  c == ' ' || c == '\t' || c == '\n' || c == '\r' || c == '\x0B' || c == '\x0C'

/-- Python `str.strip()` on a character list. -/
def pyStripList (l : List Char) : List Char :=
  ((l.dropWhile pyIsSpace).reverse.dropWhile pyIsSpace).reverse

/-- Python `str.strip()`. -/
def pyStrip (s : String) : String := ⟨pyStripList s.data⟩

/-- ASCII lower-casing of one character, as Python `str.lower()` does on ASCII. -/
def lowerChar (c : Char) : Char :=
  if 65 ≤ c.toNat && c.toNat ≤ 90 then Char.ofNat (c.toNat + 32) else c

/-- Python `str.lower()` (ASCII fragment, which is all the code compares). -/
def pyLower (s : String) : String := ⟨s.data.map lowerChar⟩

/-- Python slice `s[:n]`. -/
def pyTake (n : Nat) (s : String) : String := ⟨s.data.take n⟩

/-- Python `s.startswith(p)`. -/
def startsWithS (p s : String) : Bool := p.data.isPrefixOf s.data

/-- Contiguous-sublist test on character lists (Python `needle in hay`). -/
def subListOf (needle : List Char) : List Char → Bool
  | [] => needle.isEmpty
  | c :: rest => needle.isPrefixOf (c :: rest) || subListOf needle rest

/-- Python substring test `needle in hay`. -/
def subStrOf (needle hay : String) : Bool := subListOf needle.data hay.data

/-- Python `s.split(sep)` for a one-character separator (keeps empty parts). -/
def splitOnChar (sep : Char) : List Char → List (List Char)
  | [] => [[]]
  | c :: rest =>
    let r := splitOnChar sep rest
    if c == sep then [] :: r
    else
      match r with
      | [] => [[c]]
      | p :: ps => (c :: p) :: ps

/-- Join character lists with a one-character separator (Python `sep.join`). -/
def joinWithChar (sep : Char) : List (List Char) → List Char
  | [] => []
  | [p] => p
  | p :: q :: ps => p ++ sep :: joinWithChar sep (q :: ps)

/-! ## HTML tree model -/

mutual
/-- A parsed HTML node: element (with identity, tag, attributes, children)
or text node (NavigableString).  The BeautifulSoup document root is modelled
as an element whose tag is the string `[document]`. -/
inductive HTree where
  | elem (id : Nat) (tag : String) (attrs : List (String × String)) (children : HForest)
  | text (id : Nat) (s : String)

/-- A list of sibling HTML nodes. -/
inductive HForest where
  | nil
  | cons (t : HTree) (ts : HForest)
end

instance : Inhabited HTree := ⟨HTree.text 0 ""⟩

/-- Build a forest from a list of trees (literal helper). -/
def F : List HTree → HForest
  | [] => .nil
  | t :: ts => .cons t (F ts)

/-- Node id. -/
def idOf : HTree → Nat
  | .elem i _ _ _ => i
  | .text i _ => i

/-- Element tag (empty for text nodes). -/
def tagOf : HTree → String
  | .elem _ tg _ _ => tg
  | .text _ _ => ""

/-- Element attributes (none for text nodes). -/
def attrsOf : HTree → Option (List (String × String))
  | .elem _ _ a _ => some a
  | .text _ _ => none

/-- `tag.get(key)`: first binding of an attribute key. -/
def getAttr (key : String) (attrs : List (String × String)) : Option String :=
  attrs.lookup key

/-- `tag[key] = v`: replace the first binding of `key`, or append it. -/
def setAttrKV (key v : String) : List (String × String) → List (String × String)
  | [] => [(key, v)]
  | (k, w) :: rest => if k == key then (key, v) :: rest else (k, w) :: setAttrKV key v rest

mutual
/-- Subtree rooted at the node with the given id, if present. -/
def subtreeByIdT (i : Nat) : HTree → Option HTree
  | .text j s => if j == i then some (.text j s) else none
  | .elem j tg a cs => if j == i then some (.elem j tg a cs) else subtreeByIdF i cs

/-- Subtree lookup over a forest. -/
def subtreeByIdF (i : Nat) : HForest → Option HTree
  | .nil => none
  | .cons t ts =>
    match subtreeByIdT i t with
    | some r => some r
    | none => subtreeByIdF i ts
end

/-- Whether the tree contains a node with the given id. -/
def containsId (i : Nat) (t : HTree) : Bool := (subtreeByIdT i t).isSome

mutual
/-- Replace the node with id `i` by `new` (ids are unique). -/
def replaceByIdT (i : Nat) (new : HTree) : HTree → HTree
  | .text j s => if j == i then new else .text j s
  | .elem j tg a cs => if j == i then new else .elem j tg a (replaceByIdF i new cs)

/-- Replacement over a forest. -/
def replaceByIdF (i : Nat) (new : HTree) : HForest → HForest
  | .nil => .nil
  | .cons t ts => .cons (replaceByIdT i new t) (replaceByIdF i new ts)
end

mutual
/-- Remove (extract) the descendant node with id `i`. -/
def removeInT (i : Nat) : HTree → HTree
  | .text j s => .text j s
  | .elem j tg a cs => .elem j tg a (removeInF i cs)

/-- Removal over a forest: a root whose id matches is dropped whole. -/
def removeInF (i : Nat) : HForest → HForest
  | .nil => .nil
  | .cons t ts => if idOf t == i then removeInF i ts else .cons (removeInT i t) (removeInF i ts)
end

/-- Attributes of the node with id `i`. -/
def getAttrsById (i : Nat) (t : HTree) : Option (List (String × String)) :=
  (subtreeByIdT i t).bind attrsOf

/-- Replace the attribute list of the element with id `i`. -/
def setAttrsById (i : Nat) (na : List (String × String)) (t : HTree) : HTree :=
  match subtreeByIdT i t with
  | some (.elem j tg _ cs) => replaceByIdT i (.elem j tg na cs) t
  | _ => t

mutual
/-- All text-node contents in document (pre-)order, as `tag.strings` does. -/
def textsT : HTree → List String
  | .text _ s => [s]
  | .elem _ _ _ cs => textsF cs

/-- Text contents over a forest. -/
def textsF : HForest → List String
  | .nil => []
  | .cons t ts => textsT t ++ textsF ts
end

/-- `soup.get_text(strip=True)`: strip each string, drop empties, concatenate. -/
def getTextStrip (t : HTree) : String :=
  String.join (((textsT t).map pyStrip).filter (fun s => !s.data.isEmpty))

mutual
/-- All descendant elements whose tag is in `tags`, in document order
(`find_all`, including the node itself if it matches when used on subtrees). -/
def findTagsT (tags : List String) : HTree → List HTree
  | .text _ _ => []
  | .elem i tg a cs =>
    (if tags.contains tg then [HTree.elem i tg a cs] else []) ++ findTagsF tags cs

/-- `find_all` over a forest. -/
def findTagsF (tags : List String) : HForest → List HTree
  | .nil => []
  | .cons t ts => findTagsT tags t ++ findTagsF tags ts
end

/-- `t.find_all(tags)`: matching strict descendants of `t`, document order. -/
def findAllIn (tags : List String) (t : HTree) : List HTree :=
  match t with
  | .text _ _ => []
  | .elem _ _ _ cs => findTagsF tags cs

/-- `t.find(tag)`: first matching strict descendant. -/
def findTagNode (tag : String) (t : HTree) : Option HTree :=
  (findAllIn [tag] t).head?

mutual
/-- First text node (by id) satisfying `pred`, searching a node. -/
def findStrT (pred : String → Bool) : HTree → Option Nat
  | .text i s => if pred s then some i else none
  | .elem _ _ _ cs => findStrF pred cs

/-- First matching text node over a forest, document order. -/
def findStrF (pred : String → Bool) : HForest → Option Nat
  | .nil => none
  | .cons t ts =>
    match findStrT pred t with
    | some r => some r
    | none => findStrF pred ts
end

/-- `t.find(string=pred)`: first strict-descendant text node satisfying `pred`. -/
def findStringIn (pred : String → Bool) (t : HTree) : Option Nat :=
  match t with
  | .text _ _ => none
  | .elem _ _ _ cs => findStrF pred cs

/-- Whether `i` is the id of a direct child in the forest. -/
def directHas (i : Nat) : HForest → Bool
  | .nil => false
  | .cons t ts => idOf t == i || directHas i ts

mutual
/-- Ancestor chain of node `i` inside `t`: immediate parent first, up to and
including `t` itself.  `none` when `i` is not a strict descendant of `t`. -/
def ancChainT (i : Nat) (t : HTree) : Option (List HTree) :=
  match t with
  | .text _ _ => none
  | .elem j tg a cs =>
    if directHas i cs then some [HTree.elem j tg a cs]
    else (ancChainF i cs).map (fun l => l ++ [HTree.elem j tg a cs])

/-- Ancestor chain search over a forest. -/
def ancChainF (i : Nat) : HForest → Option (List HTree)
  | .nil => none
  | .cons t ts =>
    match ancChainT i t with
    | some l => some l
    | none => ancChainF i ts
end

/-- HTML void elements (rendered self-closing by BeautifulSoup). -/
def voidTags : List String :=
  ["img", "source", "br", "hr", "meta", "link", "input", "area", "base", "col", "embed", "track", "wbr"]

/-- Render an attribute list as ` k="v" ...`. -/
def renderAttrs : List (String × String) → String
  | [] => ""
  | (k, v) :: rest => " " ++ k ++ "=\"" ++ v ++ "\"" ++ renderAttrs rest

mutual
/-- `str(tag)`: serialize a node back to HTML (the `[document]` root renders
only its children, like `str(soup)`). -/
def renderT : HTree → String
  | .text _ s => s
  | .elem _ tg a cs =>
    if tg == "[document]" then renderF cs
    else if voidTags.contains tg then "<" ++ tg ++ renderAttrs a ++ "/>"
    else "<" ++ tg ++ renderAttrs a ++ ">" ++ renderF cs ++ "</" ++ tg ++ ">"

/-- Serialization of a forest. -/
def renderF : HForest → String
  | .nil => ""
  | .cons t ts => renderT t ++ renderF ts
end

/-! ## ContentProcessor._preprocess_html

The loop `for img in soup.find_all("img")` fixes the list of image nodes up
front, then mutates the document.  Mutation is modelled as state passing over
the list of live tree roots: the document first, followed by the subtrees
extracted by `replace_with` (BeautifulSoup keeps them alive, and later images
of the pre-computed list may sit inside them).  `replace_with` on an element
that is itself the root of an extracted subtree raises `ValueError` in
BeautifulSoup, which the source does not catch: that is the `none` outcome. -/

/-- Lazy-load attribute names scanned by `_preprocess_html`, in order. -/
def lazyAttrNames : List String :=
  ["data-src", "data-original", "data-url", "data-srcset", "srcset"]

/-- `val.split(",")[0].split(" ")[0]`, then upgrade protocol-relative URLs. -/
def firstTokenUrl (val : String) : String :=
  let v := ((splitOnChar ' ' ((splitOnChar ',' val.data).headD [])).headD [])
  if ['/', '/'].isPrefixOf v then ⟨'h' :: 't' :: 't' :: 'p' :: 's' :: ':' :: v⟩ else ⟨v⟩

/-- Scan the lazy-load attribute names and adopt the first truthy value. -/
def scanLazy : List String → List (String × String) → Option String
  | [], _ => none
  | a :: rest, attrs =>
    match getAttr a attrs with
    | some v => if truthyS v then some (firstTokenUrl v) else scanLazy rest attrs
    | none => scanLazy rest attrs

/-- The src-normalization step of `_preprocess_html` on one image's attributes:
when `src` is absent, empty, or a `data:image` placeholder, adopt the first
truthy lazy-load attribute (first URL token, protocol upgraded). -/
def normalizeImgAttrs (attrs : List (String × String)) : List (String × String) :=
  let src := getAttr "src" attrs
  let shouldReplace :=
    match src with
    | none => true
    | some s => !truthyS s || startsWithS "data:image" s
  if shouldReplace then
    match scanLazy lazyAttrNames attrs with
    | some u => setAttrKV "src" u attrs
    | none => attrs
  else attrs

/-- The `while parent.name in ["picture", "source", "figure"]` flattening walk
for one image.  `chain` is the image's ancestor chain (immediate parent first,
root last) computed when the walk starts; each `replace_with` puts the image in
its parent's place, so after a step the remaining ancestors are exactly the
tail of the chain.  Returns the updated tree and the extracted subtrees, or
`none` for BeautifulSoup's `ValueError` (replacing an element with no parent,
i.e. the root of an already-extracted subtree). -/
def flattenWalk (imgId : Nat) : List HTree → HTree → List HTree → Option (HTree × List HTree)
  | [], tree, det => some (tree, det)
  | p :: rest, tree, det =>
    let name := tagOf p
    if name == "picture" || name == "source" then
      if rest.isEmpty then none
      else
        match subtreeByIdT imgId tree, subtreeByIdT (idOf p) tree with
        | some imgSub, some pSub =>
          let newTree := replaceByIdT (idOf p) imgSub tree
          let detachedPiece := removeInT imgId pSub
          flattenWalk imgId rest newTree (det ++ [detachedPiece])
        | _, _ => none
    else some (tree, det)

/-- Process one image of the pre-computed `find_all("img")` list: normalize its
`src` from lazy-load attributes, then flatten enclosing `picture`/`source`
ancestors, inside whichever live tree currently holds the image. -/
def processImg (i : Nat) (trees : List HTree) : Option (List HTree) :=
  match trees.findIdx? (containsId i) with
  | none => some trees
  | some idx =>
    let t := trees.getD idx default
    let attrs := (getAttrsById i t).getD []
    let t1 := setAttrsById i (normalizeImgAttrs attrs) t
    match ancChainT i t1 with
    | none => some (trees.set idx t1)
    | some chain =>
      match flattenWalk i chain t1 [] with
      | none => none
      | some (t2, det) => some (trees.set idx t2 ++ det)

/-- `ContentProcessor._preprocess_html` over a parsed document: returns the
list of live roots (document first), or `none` when BeautifulSoup would raise. -/
def preprocessHtml (doc : HTree) : Option (List HTree) :=
  ((findAllIn ["img"] doc).map idOf).foldl (fun st i => st.bind (processImg i)) (some [doc])

/-- The preprocessed document (first live root). -/
def preprocessedDoc (doc : HTree) : Option HTree :=
  (preprocessHtml doc).map (fun ts => ts.headD doc)

/-! ## ContentProcessor._rescue_content -/

/-- Canonical content-root id names skipped in the first container pass. -/
def skipIds : List String := ["content", "main", "article", "body"]

/-- One container-loop pass of `_rescue_content`: walk the `find_all(tags)`
list in document order; when `skip` is set, skip containers whose truthy `id`
attribute lower-cases to a canonical content-root name; return the first text
node matching `pred` found inside a container. -/
def searchContainerList (pred : String → Bool) (skip : Bool) : List HTree → Option Nat
  | [] => none
  | c :: cs =>
    if skip &&
        (match (attrsOf c).bind (getAttr "id") with
         | some v => truthyS v && skipIds.contains (pyLower v)
         | none => false) then
      searchContainerList pred skip cs
    else
      match findStringIn pred c with
      | some nid => some nid
      | none => searchContainerList pred skip cs

/-- The ancestor walk of `_rescue_content`: starting from the matched text
node's parent, climb until `body`/`html` (exclusive), preferring the last
ancestor that contains images, and stopping (and selecting) at a semantic
article boundary (`article`/`main` tag, or a canonical content-root `id`). -/
def walkUp : List HTree → HTree → HTree
  | [], best => best
  | curr :: rest, best =>
    if tagOf curr == "body" || tagOf curr == "html" then best
    else
      let best1 := if (findAllIn ["img"] curr).isEmpty then best else curr
      if tagOf curr == "article" || tagOf curr == "main" ||
          (match (attrsOf curr).bind (getAttr "id") with
           | some v => truthyS v && ["main", "content", "article"].contains (pyLower v)
           | none => false) then
        curr
      else walkUp rest best1

/-- Fingerprint search of `_rescue_content`: the 100-character pass searches
the document `body`, then `article`/`main`/`section`/`div` containers with the
canonical-id skip; the 30-character retry searches the `body`, then only
`article`/`main`/`section` containers with no skip. -/
def findFingerprintNode (soup : HTree) (text : String) : Option Nat :=
  let fp100 := pyTake 100 text
  let pred1 := fun t => truthyS t && subStrOf fp100 t
  let nodeA :=
    match findTagNode "body" soup with
    | some body => findStringIn pred1 body
    | none => none
  let nodeB :=
    match nodeA with
    | some n => some n
    | none => searchContainerList pred1 true (findAllIn ["article", "main", "section", "div"] soup)
  match nodeB with
  | some n => some n
  | none =>
    let fp30 := pyTake 30 text
    let pred2 := fun t => truthyS t && subStrOf fp30 t
    let r1 :=
      match findTagNode "body" soup with
      | some body => findStringIn pred2 body
      | none => none
    match r1 with
    | some n => some n
    | none => searchContainerList pred2 false (findAllIn ["article", "main", "section"] soup)

/-- `ContentProcessor._rescue_content`: relocate the summary's text
fingerprint inside the preprocessed document and return the serialized best
ancestor container; `parse` is the BeautifulSoup parse of the summary HTML. -/
def rescue_content (parse : String → HTree) (soup : HTree) (summaryHtml : String) : String :=
  let text := getTextStrip (parse summaryHtml)
  if text.length < 50 then summaryHtml
  else
    match findFingerprintNode soup text with
    | none => summaryHtml
    | some nid =>
      match ancChainT nid soup with
      | some (p :: anc) => renderT (walkUp (p :: anc) p)
      | _ => summaryHtml

/-- Modelled from the spec text of the claim (not the source): the variant of
the fingerprint search whose 30-character retry uses the same search order as
the first pass, i.e. `body`, then `article`/`main`/`section`/`div` containers
with the canonical-id skip.  Used only to compare the claimed behaviour with
`findFingerprintNode`. -/
def findFingerprintNodeClaimed (soup : HTree) (text : String) : Option Nat :=
  let fp100 := pyTake 100 text
  let pred1 := fun t => truthyS t && subStrOf fp100 t
  let nodeA :=
    match findTagNode "body" soup with
    | some body => findStringIn pred1 body
    | none => none
  let nodeB :=
    match nodeA with
    | some n => some n
    | none => searchContainerList pred1 true (findAllIn ["article", "main", "section", "div"] soup)
  match nodeB with
  | some n => some n
  | none =>
    let fp30 := pyTake 30 text
    let pred2 := fun t => truthyS t && subStrOf fp30 t
    let r1 :=
      match findTagNode "body" soup with
      | some body => findStringIn pred2 body
      | none => none
    match r1 with
    | some n => some n
    | none => searchContainerList pred2 true (findAllIn ["article", "main", "section", "div"] soup)

/-- The rescue function as the claim describes its retry pass (comparison
definition; everything but the retry's container list and skip is as in
`rescue_content`). -/
def rescue_content_claimed (parse : String → HTree) (soup : HTree) (summaryHtml : String) : String :=
  let text := getTextStrip (parse summaryHtml)
  if text.length < 50 then summaryHtml
  else
    match findFingerprintNodeClaimed soup text with
    | none => summaryHtml
    | some nid =>
      match ancChainT nid soup with
      | some (p :: anc) => renderT (walkUp (p :: anc) p)
      | _ => summaryHtml

/-! ## ContentProcessor.extract_content -/

/-- Oracles for the external extraction engines: readability's
`Document(x).title()` and `Document(x).summary()`, and
`trafilatura.extract(x, output_format="html", include_images=True)`
(`none` models a `None` return).  Each may raise (`Except.error`). -/
structure Engines where
  title : String → Except String String
  summary : String → Except String String
  traf : String → Except String (Option String)

/-- `ContentProcessor.extract_content`: preprocess, try readability plus
rescue, fall back to trafilatura, finally return the raw input HTML with the
raw document title.  Exceptions escaping the function are `Except.error`:
preprocessing runs outside any `try`, and so does the final
`Document(html).title()` call of the raw-fallback return. -/
def extract_content (E : Engines) (parse : String → HTree) (html : String) :
    Except String (String × String) :=
  match preprocessHtml (parse html) with
  | none => .error "ValueError: replace_with on detached element"
  | some trees =>
    let soup := trees.headD (parse html)
    let preStr := renderT soup
    match E.title preStr, E.summary preStr with
    | .ok ti, .ok su => .ok (ti, rescue_content parse soup su)
    | _, _ =>
      let tier2 : Option (String × String) :=
        match E.traf preStr with
        | .error _ => none
        | .ok c =>
          if truthy c then
            match E.title html with
            | .ok t2 => some (t2, c.getD "")
            | .error _ => none
          else none
      match tier2 with
      | some r => .ok r
      | none =>
        match E.title html with
        | .ok t => .ok (t, html)
        | .error e => .error e

/-! ## ContentProcessor._chunk_text

Python strings are modelled as `List Char` here so that splitting on the
two-character separator and joining can be reasoned about directly;
`max_chars` is an `Int` because the Python parameter is an int. -/

/-- Python `text.split("\n\n")`: split on the two-newline separator,
left-to-right, keeping empty parts. -/
def splitNN : List Char → List (List Char)
  | [] => [[]]
  | '\n' :: '\n' :: rest => [] :: splitNN rest
  | c :: rest =>
    match splitNN rest with
    | [] => [[c]]
    | p :: ps => (c :: p) :: ps

/-- Python `"\n\n".join(parts)`. -/
def joinNN : List (List Char) → List Char
  | [] => []
  | [p] => p
  | p :: q :: ps => p ++ '\n' :: '\n' :: joinNN (q :: ps)

/-- The paragraph-accumulation loop of `_chunk_text`: flush the current chunk
when adding the next paragraph would overshoot `maxChars` (and the current
chunk is nonempty), then append the paragraph; a nonempty final chunk is
flushed at the end. -/
def chunkGo (maxChars : Int) : List (List Char) → List (List Char) → Nat → List (List Char)
  | [], cur, _ => if cur.isEmpty then [] else [joinNN cur]
  | p :: rest, cur, clen =>
    if ((clen + p.length + 2 : Nat) : Int) > maxChars && !cur.isEmpty then
      joinNN cur :: chunkGo maxChars rest [p] (p.length + 2)
    else chunkGo maxChars rest (cur ++ [p]) (clen + p.length + 2)

/-- `ContentProcessor._chunk_text`: split into paragraphs on blank lines and
regroup them into chunks aiming to stay under `maxChars`. -/
def chunk_text (text : List Char) (maxChars : Int := 4000) : List (List Char) :=
  chunkGo maxChars (splitNN text) [] 0

/-! ## Fetcher proxy resolution -/

/-- The proxy-relevant environment variables (each `none` when unset). -/
structure Env where
  http_proxy : Option String
  HTTP_PROXY : Option String
  https_proxy : Option String
  HTTPS_PROXY : Option String
  no_proxy : Option String
  NO_PROXY : Option String

/-- The requests proxies dict (only the `http`/`https` keys are ever read). -/
structure ReqProxies where
  http : Option String
  https : Option String
deriving DecidableEq

/-- The playwright proxy dict: `server` plus optional `bypass`. -/
structure PwProxy where
  server : String
  bypass : Option String
deriving DecidableEq

/-- Parse one pass of the Windows `ProxyServer` value: split on `;`, treat
`k=v` parts (first `=` only, stripped) as per-protocol entries remembering the
`http` one as the playwright server, and a bare part as a proxy for both
protocols.  Returns the `http` entry, the `https` entry, and the server. -/
def winPartsFold : List String → Option String × Option String × Option String →
    Option String × Option String × Option String
  | [], acc => acc
  | part :: rest, (h, hs, pw) =>
    match splitOnChar '=' part.data with
    | [] => winPartsFold rest (h, hs, pw)
    | [single] =>
      let v : String := pyStrip ⟨single⟩
      winPartsFold rest (some v, some v, some v)
    | k :: vs =>
      let key := pyStrip ⟨k⟩
      let v := pyStrip ⟨joinWithChar '=' vs⟩
      winPartsFold rest
        (if key == "http" then some v else h,
         if key == "https" then some v else hs,
         if key == "http" then some v else pw)

/-- Split a `ProxyServer` registry value into its `;`-separated parts. -/
def winParts (pc : String) : List String :=
  (splitOnChar ';' pc.data).map (fun l => (⟨l⟩ : String))

/-- The `auto` tier of `_get_proxies`: read the case-insensitive proxy
environment variables; requests gets the truthy ones, playwright prefers the
HTTPS value and carries the bypass list. -/
def autoProxies (env : Env) : Option ReqProxies × Option PwProxy :=
  let httpP := pyOr env.http_proxy env.HTTP_PROXY
  let httpsP := pyOr env.https_proxy env.HTTPS_PROXY
  let noP := pyOr env.no_proxy env.NO_PROXY
  let req :=
    if !truthy httpP && !truthy httpsP then none
    else some (⟨if truthy httpP then httpP else none,
                if truthy httpsP then httpsP else none⟩ : ReqProxies)
  let server := pyOr httpsP httpP
  let pw :=
    if truthy server then
      some (⟨server.getD "", if truthy noP then noP else none⟩ : PwProxy)
    else none
  (req, pw)

/-- `Fetcher._get_proxies`.  `cfgProxyMode`/`cfgCustomProxy` are the
`[Network]` config values; `winregOk` is whether `winreg` imports, and
`winProxyConfig` the `ProxyServer` value read from the registry (already
`none` when the proxy is disabled or the read fails). -/
def getProxies (cfgProxyMode cfgCustomProxy : Option String) (env : Env)
    (winregOk : Bool) (winProxyConfig : Option String)
    (proxyModeOverride customProxyOverride : Option String) :
    Option ReqProxies × Option PwProxy :=
  let mode :=
    if truthy proxyModeOverride then pyLower (proxyModeOverride.getD "")
    else pyLower (cfgProxyMode.getD "auto")
  if mode == "no" then (none, none)
  else
    let setResult : Option (Option ReqProxies × Option PwProxy) :=
      if mode == "set" then
        let custom := if truthy customProxyOverride then customProxyOverride else cfgCustomProxy
        if truthy custom then
          let c := custom.getD ""
          some (some ⟨some c, some c⟩, some ⟨c, none⟩)
        else none
      else none
    match setResult with
    | some r => r
    | none =>
      let winResult : Option (Option ReqProxies × Option PwProxy) :=
        if mode == "win" && winregOk then
          match winProxyConfig with
          | some pc =>
            if truthyS pc then
              let (h, hs, pw) := winPartsFold (winParts pc) (none, none, none)
              some (if h.isNone && hs.isNone then none else some ⟨h, hs⟩,
                    pw.map (fun s => ⟨s, none⟩))
            else none
          | none => none
        else none
      match winResult with
      | some r => r
      | none => autoProxies env

/-- The Windows-registry tier of `_get_twitter_forced_proxies` (no
normalization of an empty requests dict to `None`, unlike `_get_proxies`). -/
def twitterWinParse (pc : String) : Option ReqProxies × Option PwProxy :=
  let (h, hs, pw) := winPartsFold (winParts pc) (none, none, none)
  (some ⟨h, hs⟩, pw.map (fun s => ⟨s, none⟩))

/-- `Fetcher._get_twitter_forced_proxies`: explicit command-line override
first, then environment variables, then the Windows registry (when `winreg`
works, the proxy is enabled and the value is truthy), then the config
`custom_proxy`, and finally no proxy at all (with a logged warning). -/
def getTwitterForcedProxies (cfgCustomProxy : Option String) (env : Env)
    (winOk winEnable : Bool) (winProxyConfig : Option String)
    (modeOv customOv : Option String) : Option ReqProxies × Option PwProxy :=
  let ovr : Option (Option ReqProxies × Option PwProxy) :=
    if truthy modeOv then
      let m := pyLower (modeOv.getD "")
      if m == "no" then some (none, none)
      else if m == "set" && truthy customOv then
        let c := customOv.getD ""
        some (some ⟨some c, some c⟩, some ⟨c, none⟩)
      else none
    else none
  match ovr with
  | some r => r
  | none =>
    let httpP := pyOr env.http_proxy env.HTTP_PROXY
    let httpsP := pyOr env.https_proxy env.HTTPS_PROXY
    let noP := pyOr env.no_proxy env.NO_PROXY
    if truthy httpP || truthy httpsP then
      let server := (pyOr httpsP httpP).getD ""
      (some ⟨if truthy httpP then httpP else none, if truthy httpsP then httpsP else none⟩,
       some ⟨server, if truthy noP then noP else none⟩)
    else
      let winRes : Option (Option ReqProxies × Option PwProxy) :=
        if winOk && winEnable then
          match winProxyConfig with
          | some pc => if truthyS pc then some (twitterWinParse pc) else none
          | none => none
        else none
      match winRes with
      | some r => r
      | none =>
        match cfgCustomProxy with
        | some c => if truthyS c then (some ⟨some c, some c⟩, some ⟨c, none⟩) else (none, none)
        | none => (none, none)

/-! ## Fetcher.fetch routing -/

/-- Where a `Fetcher.fetch` call ends up. -/
inductive FetchPath where
  | handler (html : String)
  | staticFetch (html : String)
  | browser
deriving DecidableEq

/-- The routing logic of `Fetcher.fetch`: a truthy special-handler result is
returned as-is; otherwise, unless the caller forces the browser, a static GET
is attempted (`resp = none` models a request exception or a non-2xx status
raised by `raise_for_status`); a successful body that is shorter than 1000
characters or contains `<noscript>` escalates to the browser fetch. -/
def fetchRoute (handlerHtml : Option String) (useBrowser : Bool) (resp : Option String) :
    FetchPath :=
  if truthy handlerHtml then .handler (handlerHtml.getD "")
  else if useBrowser then .browser
  else
    match resp with
    | none => .browser
    | some text =>
      if text.length < 1000 || subStrOf "<noscript>" text then .browser
      else .staticFetch text

/-! ## Site-handler dispatch and policy resolution in `main` -/

/-- The default policy flags of a `SPECIAL_SITE_HANDLERS` entry (a missing key
reads as falsy through `site_config.get`). -/
structure SiteCfg where
  default_no_proxy : Bool
  default_no_translate : Bool
deriving DecidableEq

/-- Anchored-regex match as a prefix test (the site patterns are literal
prefixes up to the optional scheme `s` and `www.` group). -/
def matchAnyStart (ps : List String) (url : String) : Bool :=
  ps.any (fun p => startsWithS p url)

/-- The prefixes matched by the twitter patterns
`^https?://(www\.)?twitter\.com/` and `^https?://(www\.)?x\.com/`. -/
def twitterPrefixes : List String :=
  ["https://twitter.com/", "http://twitter.com/",
   "https://www.twitter.com/", "http://www.twitter.com/",
   "https://x.com/", "http://x.com/",
   "https://www.x.com/", "http://www.x.com/"]

/-- The wechat pattern `^https?://mp\.weixin\.qq\.com/.*__biz=`: after the
literal prefix, `.*` (which does not cross a newline) must reach `__biz=`. -/
def startsThenBiz (pre url : String) : Bool :=
  pre.data.isPrefixOf url.data &&
  subListOf "__biz=".data ((url.data.drop pre.data.length).takeWhile (fun c => c != '\n'))

/-- URL match for the wechat handler's two patterns. -/
def matchWechat (url : String) : Bool :=
  startsWithS "https://mp.weixin.qq.com/s/" url || startsWithS "http://mp.weixin.qq.com/s/" url ||
  startsThenBiz "https://mp.weixin.qq.com/" url || startsThenBiz "http://mp.weixin.qq.com/" url

/-- The prefixes matched by the xiaohongshu patterns. -/
def xhsPrefixes : List String :=
  ["https://xiaohongshu.com/explore/", "http://xiaohongshu.com/explore/",
   "https://www.xiaohongshu.com/explore/", "http://www.xiaohongshu.com/explore/",
   "https://xiaohongshu.com/user/profile/", "http://xiaohongshu.com/user/profile/",
   "https://www.xiaohongshu.com/user/profile/", "http://www.xiaohongshu.com/user/profile/"]

/-- `_get_handler_for_url` restricted to what `main` consumes: the matching
site's name and default policy flags, first match in registration order
(twitter, wechat, xiaohongshu). -/
def getHandlerSite (url : String) : Option (String × SiteCfg) :=
  if matchAnyStart twitterPrefixes url then some ("twitter", ⟨false, false⟩)
  else if matchWechat url then some ("wechat", ⟨true, true⟩)
  else if matchAnyStart xhsPrefixes url then some ("xiaohongshu", ⟨true, true⟩)
  else none

/-- The command-line inputs that feed policy resolution in `main`. -/
structure ArgsM where
  proxy : Option String
  c : Bool
  n : Bool
  lang : Option String
  r : Bool
  b : Bool

/-- The policy-resolution block of `main`: derive the proxy-mode override and
the language mode from the arguments, then apply the matched site's defaults
(`default_no_proxy` only when no proxy override was given; `default_no_translate`
whenever the language mode is still the string `trans`). -/
def resolvePolicies (a : ArgsM) (siteCfg : Option SiteCfg) : Option String × String :=
  let langMode :=
    match a.lang with
    | some l => l
    | none => if a.r then "raw" else if a.b then "both" else "trans"
  let proxyMode :=
    match a.proxy with
    | some p => some p
    | none => if a.c then some "custom" else if a.n then some "no" else none
  match siteCfg with
  | none => (proxyMode, langMode)
  | some sc =>
    let proxyMode1 := if sc.default_no_proxy && proxyMode.isNone then some "no" else proxyMode
    let langMode1 := if sc.default_no_translate && langMode == "trans" then "raw" else langMode
    (proxyMode1, langMode1)

/-! ## Fetcher._fetch_xiaohongshu -/

/-- Oracles for one xiaohongshu fetch run: per recursion depth `k`, whether
navigation raises, whether the landed URL contains `/login` or `/signin`, and
the note HTML otherwise; `loginSucceeds l` is the outcome of the `l`-th
interactive login of the run. -/
structure XhsWorld where
  loginSucceeds : Nat → Bool
  navOk : Nat → Bool
  landsOnLogin : Nat → Bool
  pageHtml : Nat → String

/-- Outcome of a xiaohongshu fetch: note HTML, a `None` return, or still
recursing after the given number of attempts (fuel). -/
inductive XhsResult where
  | html (s : String)
  | failure
  | stillRetrying
deriving DecidableEq

/-- `Fetcher._fetch_xiaohongshu` as a fuelled recursion: attempt `k` with
login counter `l` and saved-state flag `haveState`.  Without saved state an
interactive login runs first (failure returns `None`).  After navigation, a
login-page URL triggers another interactive login and, on success, a full
recursive retry with the fresh state — the source recurses with no retry
bound, so exhausting the fuel means the run is still retrying. -/
def fetchXiaohongshu (w : XhsWorld) : Nat → Nat → Nat → Bool → XhsResult
  | 0, _, _, _ => .stillRetrying
  | fuel + 1, k, l, haveState =>
    let pre : Nat × Bool := if haveState then (l, true) else (l + 1, w.loginSucceeds l)
    if !pre.2 then .failure
    else if !w.navOk k then .failure
    else if w.landsOnLogin k then
      if w.loginSucceeds pre.1 then fetchXiaohongshu w fuel (k + 1) (pre.1 + 1) true
      else .failure
    else .html (w.pageHtml k)

/-- The adversarial world for the retry-bound question: every navigation lands
back on the login page and every interactive login succeeds. -/
def xhsAlwaysLogin : XhsWorld :=
  ⟨fun _ => true, fun _ => true, fun _ => true, fun _ => ""⟩

/-! ## Concrete fixtures for the individual claims -/

/-- The claim's preprocessing scenario, as html.parser parses it:
`<picture><source srcset="a.jpg 1x, b.jpg 2x"><img></picture>`
(`source` and `img` are void elements, so the `img` is a sibling of the
`source` inside the `picture`). -/
def c2Doc : HTree :=
  .elem 0 "[document]" [] (F [.elem 1 "picture" [] (F [
    .elem 2 "source" [("srcset", "a.jpg 1x, b.jpg 2x")] .nil,
    .elem 3 "img" [] .nil])])

/-- The document after preprocessing the scenario: a bare `<img>` with no
attributes at all. -/
def c2DocAfter : HTree :=
  .elem 0 "[document]" [] (F [.elem 3 "img" [] .nil])

/-- The extracted `picture` wrapper (still holding the `source`). -/
def c2Detached : HTree :=
  .elem 1 "picture" [] (F [.elem 2 "source" [("srcset", "a.jpg 1x, b.jpg 2x")] .nil])

/-- The static-path scenario body from the spec. -/
def scenarioBody : String := "<html><body>short</body></html>"

/-- A 60-character summary plain text (letters only, so stripping is the
identity). -/
def s60 : String :=
  "abcdefghijklmnopqrstuvwxyzabcdefghijklmnopqrstuvwxyzabcdefgh"

/-- The first 30 characters of `s60`. -/
def fp30str : String := "abcdefghijklmnopqrstuvwxyzabcd"

/-- The summary HTML handed to the rescue step in the C5 scenarios. -/
def sC5str : String := "<p>" ++ s60 ++ "</p>"

/-- Parse oracle for the C5 scenarios: the summary HTML parses to a paragraph
holding the 60-character text. -/
def parseC5 : String → HTree := fun _ => .elem 100 "p" [] (F [.text 101 s60])

/-- A preprocessed document with no `body` whose only occurrence of the
30-character fingerprint sits inside a generic `div`. -/
def docC5 : HTree :=
  .elem 0 "[document]" [] (F [.elem 1 "div" [] (F [.text 2 fp30str])])

/-- A preprocessed document with no `body` whose only occurrence of the
30-character fingerprint sits inside a `section` with `id="content"` (a
canonical content-root name). -/
def docC5b : HTree :=
  .elem 10 "[document]" [] (F [.elem 11 "section" [("id", "content")] (F [.text 12 fp30str])])

/-- A preprocessed document whose only occurrence of the 30-character
fingerprint sits inside a `div` within the `body`. -/
def docC5c : HTree :=
  .elem 20 "[document]" [] (F [.elem 21 "body" [] (F [
    .elem 22 "div" [] (F [.text 23 fp30str])])])

/-- Engine oracle whose readability title always raises. -/
def enginesTitleRaises : Engines :=
  ⟨fun _ => .error "Document title raised", fun _ => .ok "", fun _ => .error "boom"⟩

/-- Engine oracle whose summary and trafilatura calls raise but whose title
calls succeed. -/
def enginesTitleOk : Engines :=
  ⟨fun _ => .ok "T", fun _ => .error "summary raised", fun _ => .error "traf raised"⟩

/-- Engine oracle whose summary raises, whose title succeeds, and whose
trafilatura call returns `None` (the engine "returns nothing" without
raising). -/
def enginesTrafNone : Engines :=
  ⟨fun _ => .ok "T", fun _ => .error "summary raised", fun _ => .ok none⟩

/-- Trivial parse oracle: an empty document (no images). -/
def parseEmptyDoc : String → HTree := fun _ => .elem 0 "[document]" [] .nil

/-- Parse oracle for `<picture><img/><img/></picture>`: a single `picture`
holding two void `img` siblings.  Flattening the first image extracts the
`picture` (with the second image still inside); processing the second image
then calls `replace_with` on the extracted `picture`, which has no parent, so
BeautifulSoup raises `ValueError` — outside any `try` in `extract_content`. -/
def parseTwoImgsPicture : String → HTree := fun _ =>
  .elem 0 "[document]" [] (F [.elem 1 "picture" [] (F [
    .elem 2 "img" [] .nil, .elem 3 "img" [] .nil])])

/-- Parse oracle for the C4 witness: the summary parses to a 5-character
paragraph, far below the 50-character rescue threshold. -/
def parseShort : String → HTree := fun _ => .elem 0 "p" [] (F [.text 1 "short"])

/-- An environment with no proxy variables set. -/
def emptyEnv : Env := ⟨none, none, none, none, none, none⟩

/-- An environment carrying every proxy variable (for the mode-`no` witness). -/
def fullEnv : Env :=
  ⟨some "http://e1:1", some "http://e2:2", some "http://e3:3",
   some "http://e4:4", some "localhost", some "intra"⟩

/-- An environment with only `https_proxy` set. -/
def envHttpsOnly (h : String) : Env := ⟨none, none, some h, none, none, none⟩

/-- A well-behaved xiaohongshu world: navigation works and never lands on the
login page. -/
def xhsGood : XhsWorld :=
  ⟨fun _ => true, fun _ => true, fun _ => false, fun k => "note" ++ toString k⟩

/-! ## Helper lemmas -/

theorem splitNN_ne_nil (s : List Char) : splitNN s ≠ [] := by
  induction s using splitNN.induct with
  | case1 => simp [splitNN.eq_1]
  | case2 rest ih => simp [splitNN.eq_2]
  | case3 c rest hg hnil ih => exact absurd hnil ih
  | case4 c rest hg p ps hps ih =>
    rw [splitNN.eq_3 c rest hg, hps]
    simp

theorem joinNN_cons (x : List Char) (l : List (List Char)) (h : l ≠ []) :
    joinNN (x :: l) = x ++ '\n' :: '\n' :: joinNN l := by
  cases l with
  | nil => exact absurd rfl h
  | cons q ps => rfl

theorem joinNN_append (a b : List (List Char)) (ha : a ≠ []) (hb : b ≠ []) :
    joinNN (a ++ b) = joinNN a ++ '\n' :: '\n' :: joinNN b := by
  induction a with
  | nil => exact absurd rfl ha
  | cons x xs ih =>
    cases xs with
    | nil => simpa using joinNN_cons x b hb
    | cons y ys =>
      have h1 : (y :: ys : List (List Char)) ≠ [] := by simp
      have h2 : (y :: ys) ++ b ≠ [] := by simp
      calc joinNN ((x :: y :: ys) ++ b) = joinNN (x :: ((y :: ys) ++ b)) := by simp
        _ = x ++ '\n' :: '\n' :: joinNN ((y :: ys) ++ b) := joinNN_cons _ _ h2
        _ = x ++ '\n' :: '\n' :: (joinNN (y :: ys) ++ '\n' :: '\n' :: joinNN b) := by
              rw [ih h1]
        _ = (x ++ '\n' :: '\n' :: joinNN (y :: ys)) ++ '\n' :: '\n' :: joinNN b := by simp
        _ = joinNN (x :: y :: ys) ++ '\n' :: '\n' :: joinNN b := by rw [joinNN_cons _ _ h1]

theorem joinNN_splitNN (s : List Char) : joinNN (splitNN s) = s := by
  induction s using splitNN.induct with
  | case1 => rfl
  | case2 rest ih =>
    rw [splitNN.eq_2, joinNN_cons _ _ (splitNN_ne_nil rest), ih]
    rfl
  | case3 c rest hg hnil ih => exact absurd hnil (splitNN_ne_nil rest)
  | case4 c rest hg p ps hps ih =>
    rw [splitNN.eq_3 c rest hg, hps]
    rw [hps] at ih
    cases ps with
    | nil =>
      simp only [joinNN] at ih ⊢
      rw [ih]
    | cons q ps' =>
      rw [joinNN_cons _ _ (by simp)]
      rw [joinNN_cons _ _ (by simp)] at ih
      simp only [List.cons_append]
      rw [ih]

theorem chunkGo_ne_nil (m : Int) (paras : List (List Char)) :
    ∀ cur clen, cur ≠ [] → chunkGo m paras cur clen ≠ [] := by
  induction paras with
  | nil =>
    intro cur clen h
    rw [chunkGo]
    simp [h]
  | cons p rest ih =>
    intro cur clen h
    rw [chunkGo]
    split
    · simp
    · exact ih (cur ++ [p]) _ (by simp)

theorem chunkGo_join (m : Int) (paras : List (List Char)) :
    ∀ cur clen, cur ≠ [] → joinNN (chunkGo m paras cur clen) = joinNN (cur ++ paras) := by
  induction paras with
  | nil =>
    intro cur clen h
    rw [chunkGo]
    simp [h, joinNN]
  | cons p rest ih =>
    intro cur clen h
    rw [chunkGo]
    split
    · have h1 : ([p] : List (List Char)) ≠ [] := by simp
      rw [joinNN_cons _ _ (chunkGo_ne_nil m rest [p] _ h1), ih [p] _ h1,
        joinNN_append cur (p :: rest) h (by simp)]
      simp
    · rw [ih (cur ++ [p]) _ (by simp)]
      simp

/-! ## Claim theorems -/

/-- C10: for every input text and every `max_chars`, joining the chunks
returned by `ContentProcessor._chunk_text` with the `"\n\n"` separator yields
exactly the original text — chunking preserves every paragraph, their order,
and the blank-line separators, losing and duplicating nothing. -/
theorem chunk_text_join_roundtrip (text : List Char) (maxChars : Int) :
    joinNN (chunk_text text maxChars) = text := by
  unfold chunk_text
  rcases hr : splitNN text with _ | ⟨p, ps⟩
  · exact absurd hr (splitNN_ne_nil text)
  · rw [chunkGo]
    simp only [List.isEmpty_nil, Bool.not_true, Bool.and_false, Bool.false_eq_true,
      if_false, List.nil_append]
    rw [chunkGo_join maxChars ps [p] _ (by simp)]
    rw [show ([p] ++ ps : List (List Char)) = p :: ps from rfl, ← hr, joinNN_splitNN]

/-- C4: whenever the summary HTML's plain text (after stripping) is shorter
than 50 characters, `ContentProcessor._rescue_content` returns the summary
HTML unchanged (byte-identical), whatever the preprocessed document holds. -/
theorem rescue_short_summary_identity (parse : String → HTree) (soup : HTree)
    (summaryHtml : String)
    (h : (getTextStrip (parse summaryHtml)).length < 50) :
    rescue_content parse soup summaryHtml = summaryHtml := by
  unfold rescue_content
  rw [if_pos h]

/-- Witness for C4 at a concrete 5-character summary and a concrete document. -/
theorem rescue_short_summary_identity_witness :
    (getTextStrip (parseShort "<p>short</p>")).length < 50 ∧
    rescue_content parseShort (HTree.elem 0 "[document]" [] .nil) "<p>short</p>" =
      "<p>short</p>" :=
  ⟨by decide,
   rescue_short_summary_identity parseShort (HTree.elem 0 "[document]" [] .nil)
     "<p>short</p>" (by decide)⟩

/-- C2 counterexample: preprocessing the scenario
`<picture><source srcset="a.jpg 1x, b.jpg 2x"><img></picture>` does flatten
the wrappers, but the surviving `<img>` carries no `src` attribute at all —
the lazy-load scan reads only the image's own attributes, never the sibling
`<source>`'s `srcset`, so the claimed `<img src="a.jpg">` is not produced. -/
theorem preprocess_picture_scenario_cex :
    preprocessHtml c2Doc = some [c2DocAfter, c2Detached] ∧
    (getAttrsById 3 c2DocAfter).bind (getAttr "src") = none ∧
    ¬((getAttrsById 3 c2DocAfter).bind (getAttr "src") = some "a.jpg") :=
  ⟨rfl, rfl, by decide⟩

/-- C2 amended: preprocessing the scenario yields a single `<img>` with no
attributes (in particular no `src`), with no `picture`/`source` element left
around it; the first-URL-token adoption does happen when a lazy-load
attribute sits on the image element itself. -/
theorem preprocess_picture_scenario_amended :
    preprocessHtml c2Doc = some [c2DocAfter, c2Detached] ∧
    findAllIn ["picture", "source"] c2DocAfter = [] ∧
    getAttrsById 3 c2DocAfter = some [] ∧
    normalizeImgAttrs [("srcset", "a.jpg 1x, b.jpg 2x")] =
      [("srcset", "a.jpg 1x, b.jpg 2x"), ("src", "a.jpg")] :=
  ⟨rfl, rfl, rfl, rfl⟩

/-- C5 counterexample: on a document with no `body` whose only occurrence of
the 30-character fingerprint lies in a generic `div`, the code's retry pass
returns the summary unchanged, while the claimed same-order-as-first-pass
retry (searching `div` containers too) would find the node and return the
serialized container. -/
theorem rescue_retry_search_cex :
    rescue_content parseC5 docC5 sC5str = sC5str ∧
    rescue_content_claimed parseC5 docC5 sC5str = "<div>" ++ fp30str ++ "</div>" ∧
    ("<div>" ++ fp30str ++ "</div>" : String) ≠ sC5str :=
  ⟨rfl, rfl, by decide⟩

/-- C5 amended: the 30-character retry searches the document `body` first
(the fingerprint inside a `div` within the `body` is found), then only
`article`/`main`/`section` containers, with no canonical-id skip (a `section`
with `id="content"` is searched in the retry even though the first pass skips
it); generic `div` containers outside the `body` are not searched in the
retry (the summary comes back unchanged). -/
theorem rescue_retry_search_amended :
    rescue_content parseC5 docC5c sC5str = "<div>" ++ fp30str ++ "</div>" ∧
    rescue_content parseC5 docC5b sC5str =
      "<section id=\"content\">" ++ fp30str ++ "</section>" ∧
    rescue_content parseC5 docC5 sC5str = sC5str :=
  ⟨rfl, rfl, rfl⟩

/-- C6 counterexample: the scenario response `<html><body>short</body></html>`
has 31 characters, not 18 as the claim states (it does still trigger the
browser fallback, being far below the 1000-character threshold). -/
theorem static_heuristic_scenario_cex :
    scenarioBody.length = 31 ∧ scenarioBody.length ≠ 18 ∧
    fetchRoute none false (some scenarioBody) = .browser :=
  ⟨by decide, by decide, by decide⟩

/-- C6 amended: on the static path with no special handler and no forced
browser mode, a successful response whose body is shorter than 1000
characters or contains `<noscript>` escalates to the browser fetch; in
particular the 31-character scenario body does. -/
theorem static_fetch_heuristic_amended (t : String)
    (h : t.length < 1000 ∨ subStrOf "<noscript>" t = true) :
    fetchRoute none false (some t) = .browser := by
  unfold fetchRoute
  rcases h with h | h
  · simp [truthy, h]
  · simp [truthy, h]

/-- Witness for C6 at the scenario body. -/
theorem static_fetch_heuristic_amended_witness :
    (scenarioBody.length < 1000 ∨ subStrOf "<noscript>" scenarioBody = true) ∧
    fetchRoute none false (some scenarioBody) = .browser :=
  ⟨Or.inl (by decide), static_fetch_heuristic_amended scenarioBody (Or.inl (by decide))⟩

/-- C3 counterexample: with saved state, when every navigation lands back on
the login page and every forced interactive login succeeds, the fetch is
still retrying after two attempts — and still after five — so it does not
terminate after at most one re-login-and-retry cycle. -/
theorem xiaohongshu_retry_not_once_cex :
    fetchXiaohongshu xhsAlwaysLogin 2 0 0 true = .stillRetrying ∧
    fetchXiaohongshu xhsAlwaysLogin 5 0 0 true = .stillRetrying :=
  ⟨rfl, rfl⟩

/-- C3 amended: the detected login redirect triggers a fresh interactive
login followed by a full recursive retry with no retry bound: in a world
where every attempt lands on the login page and every login succeeds the
fetch never terminates, however much fuel it is given; it returns the page
as soon as an attempt does not land on the login page. -/
theorem xiaohongshu_retry_unbounded_amended :
    (∀ fuel k l hs, fetchXiaohongshu xhsAlwaysLogin fuel k l hs = .stillRetrying) ∧
    (∀ (w : XhsWorld) (fuel k l : Nat), w.navOk k = true → w.landsOnLogin k = false →
      fetchXiaohongshu w (fuel + 1) k l true = .html (w.pageHtml k)) := by
  constructor
  · intro fuel
    induction fuel with
    | zero => intro k l hs; rfl
    | succ n ih =>
      intro k l hs
      cases hs
      · exact ih (k + 1) (l + 1 + 1) true
      · exact ih (k + 1) (l + 1) true
  · intro w fuel k l hnav hland
    simp [fetchXiaohongshu, hnav, hland]

/-- Witness for C3's amended statement: the always-login world is still
retrying after nine attempts, while a world whose first navigation lands on
the note page returns its HTML at once. -/
theorem xiaohongshu_retry_unbounded_amended_witness :
    fetchXiaohongshu xhsAlwaysLogin 9 0 0 true = .stillRetrying ∧
    fetchXiaohongshu xhsGood 1 0 0 true = .html (xhsGood.pageHtml 0) :=
  ⟨xiaohongshu_retry_unbounded_amended.1 9 0 0 true,
   xiaohongshu_retry_unbounded_amended.2 xhsGood 0 0 0 rfl rfl⟩

/-- C1 counterexample: `extract_content` can raise on two concrete inputs.
First, when the readability engine raises on every call (the spec's interface
allows the primary extractor to throw on malformed input), the terminal
raw-fallback tier obtains the raw title via `Document(html).title()` outside
any `try`, so the exception escapes.  Second, on
`<picture><img/><img/></picture>` the preprocessing step itself — also
outside any `try` — raises BeautifulSoup's `ValueError` (flattening the first
image extracts the `picture`; flattening the second calls `replace_with` on
that parentless element), even with engines that never raise. -/
theorem extract_content_can_raise_cex :
    extract_content enginesTitleRaises parseEmptyDoc "<p>x</p>" =
      .error "Document title raised" ∧
    preprocessHtml (parseTwoImgsPicture "<picture><img/><img/></picture>") = none ∧
    extract_content enginesTrafNone parseTwoImgsPicture "<picture><img/><img/></picture>" =
      .error "ValueError: replace_with on detached element" :=
  ⟨rfl, rfl, rfl⟩

/-- C1 amended: provided preprocessing succeeds and the raw-title call
`Document(html).title()` does not raise, `extract_content` always returns a
result; and whenever the primary tier fails (its title or its summary call on
the preprocessed HTML raises) while trafilatura fails or returns nothing
(raises, or returns `None` or an empty string), that result is exactly the
original unmodified input HTML paired with the raw title. -/
theorem extract_content_raw_fallback_amended (E : Engines) (parse : String → HTree)
    (html : String) (trees : List HTree) (t : String)
    (hpre : preprocessHtml (parse html) = some trees)
    (ht : E.title html = .ok t) :
    (extract_content E parse html).isOk = true ∧
    ((E.title (renderT (trees.headD (parse html)))).isOk = false ∨
        (E.summary (renderT (trees.headD (parse html)))).isOk = false →
      (∀ c, E.traf (renderT (trees.headD (parse html))) = .ok c → truthy c = false) →
      extract_content E parse html = .ok (t, html)) := by
  constructor
  · simp only [extract_content, hpre]
    cases h1 : E.title (renderT (trees.headD (parse html))) with
    | ok t1 =>
      cases h2 : E.summary (renderT (trees.headD (parse html))) with
      | ok s1 => rfl
      | error e =>
        cases h3 : E.traf (renderT (trees.headD (parse html))) with
        | error e2 => simp [ht, Except.isOk, Except.toBool]
        | ok c =>
          cases hc : truthy c
          · simp [hc, ht, Except.isOk, Except.toBool]
          · simp [hc, ht, Except.isOk, Except.toBool]
    | error e1 =>
      cases h3 : E.traf (renderT (trees.headD (parse html))) with
      | error e2 => simp [ht, Except.isOk, Except.toBool]
      | ok c =>
        cases hc : truthy c
        · simp [hc, ht, Except.isOk, Except.toBool]
        · simp [hc, ht, Except.isOk, Except.toBool]
  · intro h1 h2
    simp only [extract_content, hpre]
    cases ha : E.title (renderT (trees.headD (parse html))) with
    | ok t1 =>
      cases hb : E.summary (renderT (trees.headD (parse html))) with
      | ok s1 =>
        rw [ha, hb] at h1
        rcases h1 with h1 | h1 <;> simp [Except.isOk, Except.toBool] at h1
      | error e =>
        cases hc : E.traf (renderT (trees.headD (parse html))) with
        | error e2 => simp [ht]
        | ok c => simp [h2 c hc, ht]
    | error e =>
      cases hc : E.traf (renderT (trees.headD (parse html))) with
      | error e2 => simp [ht]
      | ok c => simp [h2 c hc, ht]

/-- Witness for C1's amended statement: engines whose summary call raises and
whose trafilatura call returns `None` (failing and returning nothing,
respectively) while the title calls succeed make `extract_content` return the
raw input HTML with the raw title. -/
theorem extract_content_raw_fallback_amended_witness :
    (extract_content enginesTrafNone parseEmptyDoc "<p>x</p>").isOk = true ∧
    extract_content enginesTrafNone parseEmptyDoc "<p>x</p>" = .ok ("T", "<p>x</p>") := by
  have h := extract_content_raw_fallback_amended enginesTrafNone parseEmptyDoc "<p>x</p>"
    [HTree.elem 0 "[document]" [] .nil] "T" rfl rfl
  refine ⟨h.1, h.2 (Or.inr (by decide)) ?_⟩
  intro c hc
  simp only [enginesTrafNone] at hc
  cases hc
  rfl

/-- C7: `Fetcher._get_proxies` with effective mode `no` (the command-line
override when truthy, else the config value) returns `(None, None)` for both
the requests proxies and the browser proxy, for every environment, registry
state and custom-proxy setting. -/
theorem get_proxies_mode_no (cm cp : Option String) (env : Env) (wOk : Bool)
    (wpc mo co : Option String)
    (h : (if truthy mo then pyLower (mo.getD "") else pyLower (cm.getD "auto")) = "no") :
    getProxies cm cp env wOk wpc mo co = (none, none) := by
  unfold getProxies
  rw [h]
  rfl

/-- Witness for C7: override mode `no` with every environment variable set,
a registry proxy configured, and a config custom proxy. -/
theorem get_proxies_mode_no_witness :
    ((if truthy (some "no") then pyLower ((some "no").getD "")
      else pyLower ((some "auto").getD "auto")) = "no") ∧
    getProxies (some "auto") (some "http://cfg:1") fullEnv true (some "http://w:1")
      (some "no") (some "http://o:1") = (none, none) :=
  ⟨by decide,
   get_proxies_mode_no (some "auto") (some "http://cfg:1") fullEnv true
     (some "http://w:1") (some "no") (some "http://o:1") (by decide)⟩

/-- C8 (code bug): a wechat URL matches the site rule with both defaults set;
with no proxy override the resolved proxy mode becomes `no` as claimed, but a
caller-supplied explicit `--lang trans` is conflated with the default
sentinel and overridden to `raw` by the rule — without the rule the same
arguments resolve to `trans`, so the explicit override does not take effect,
contradicting the code's own `Command line > Special site default` comment. -/
theorem policy_lang_override_bug :
    getHandlerSite "https://mp.weixin.qq.com/s/abc" = some ("wechat", ⟨true, true⟩) ∧
    resolvePolicies ⟨none, false, false, some "trans", false, false⟩
      ((getHandlerSite "https://mp.weixin.qq.com/s/abc").map (fun x => x.2)) =
      (some "no", "raw") ∧
    resolvePolicies ⟨none, false, false, some "trans", false, false⟩ none =
      (none, "trans") ∧
    resolvePolicies ⟨some "win", false, false, none, false, false⟩
      ((getHandlerSite "https://mp.weixin.qq.com/s/abc").map (fun x => x.2)) =
      (some "win", "raw") :=
  ⟨by decide, by decide, by decide, by decide⟩

/-- C9: priority order of `_get_twitter_forced_proxies` — an explicit `no` or
`set` command-line override wins over everything; otherwise truthy proxy
environment variables win over the registry and the config; otherwise an
enabled Windows registry proxy is parsed and used; otherwise the config
`custom_proxy` is used; and with all four absent the resolution degrades to
`(None, None)` instead of failing. -/
theorem twitter_forced_proxy_priority :
    (∀ cp env wOk wE wpc co,
      getTwitterForcedProxies cp env wOk wE wpc (some "no") co = (none, none)) ∧
    (∀ cp env wOk wE wpc,
      getTwitterForcedProxies cp env wOk wE wpc (some "set") (some "http://o:1") =
        (some ⟨some "http://o:1", some "http://o:1"⟩, some ⟨"http://o:1", none⟩)) ∧
    (∀ cp wOk wE wpc,
      getTwitterForcedProxies cp (envHttpsOnly "http://env:3") wOk wE wpc none none =
        (some ⟨none, some "http://env:3"⟩, some ⟨"http://env:3", none⟩)) ∧
    (∀ cp,
      getTwitterForcedProxies cp emptyEnv true true (some "http=a:1;https=b:2") none none =
        twitterWinParse "http=a:1;https=b:2") ∧
    (getTwitterForcedProxies (some "http://cfg:9") emptyEnv true false none none none =
      (some ⟨some "http://cfg:9", some "http://cfg:9"⟩, some ⟨"http://cfg:9", none⟩)) ∧
    (getTwitterForcedProxies none emptyEnv true false none none none = (none, none)) :=
  ⟨fun _ _ _ _ _ _ => rfl, fun _ _ _ _ _ => rfl, fun _ _ _ _ => rfl,
   fun _ => rfl, rfl, rfl⟩
